import Mathlib

/-!
Verification of the Cache-Coordinated Entry Store of wastebin.

The repository ships `src/main.rs` (configuration, server assembly) and a test
helper.  The core modules `cache.rs` and `db.rs` (the `cache::Layer`
coordinator, the render cache, the entry store and `purge_periodically`) are
declared in `main.rs` (`mod cache; mod db;`) but their sources are not part of
this snapshot, so the corresponding definitions below are modelled from the
specification (sections 3-5 of the spec); each such definition says so in its
doc comment.  The configuration pipeline (`serve`, the cache-size environment
variable) is embedded directly from `src/main.rs`.
-/

deriving instance DecidableEq for Except

namespace Wastebin

/-- Error kinds of the core (spec section 7). -/
inductive Error where
  | notFound
  | renderError
  | storageError
  deriving DecidableEq, Repr

/-- Modelled from the spec: a durable Entry row (spec section 3); the backing
`db.rs` is not in the snapshot.  Timestamps are naturals. -/
structure Entry where
  content : String
  languageHint : Option String
  createdAt : Nat
  expiresAt : Option Nat
  burnAfterRead : Bool
  deriving DecidableEq, Repr

/-- Modelled from the spec: a cache key, `(entry id, render parameters)`
(spec section 3); render parameters are kept opaque as a natural. -/
structure CacheKey where
  id : Nat
  params : Nat
  deriving DecidableEq, Repr

/-- Modelled from the spec: the joint state of EntryStore and RenderCache as
composed by the Coordinator (`cache::Layer`), whose source is not in the
snapshot.  The cache list is kept in most-recently-used-first order. -/
structure SysState where
  store : List (Nat × Entry)
  nextId : Nat
  cache : List (CacheKey × String)
  cap : Nat
  deriving DecidableEq, Repr

/-- First-match lookup in an association list. -/
def alistLookup {κ α : Type} [DecidableEq κ] (k : κ) : List (κ × α) → Option α
  | [] => none
  | (j, v) :: rest => if j = k then some v else alistLookup k rest

/-- Remove every pair with the given key from an association list. -/
def alistErase {κ α : Type} [DecidableEq κ] (k : κ) (l : List (κ × α)) :
    List (κ × α) :=
  l.filter (fun p => decide (p.1 ≠ k))

/-- Association lookup in the store rows. -/
def lookupStore (i : Nat) (l : List (Nat × Entry)) : Option Entry :=
  alistLookup i l

/-- Remove the row with the given id. -/
def eraseStore (i : Nat) (l : List (Nat × Entry)) : List (Nat × Entry) :=
  alistErase i l

/-- Modelled from the spec: an entry with `expires_at <= now` is expired
(spec section 4.1, `list_expired`; read treats it as absent). -/
def isExpired (now : Nat) (e : Entry) : Bool :=
  match e.expiresAt with
  | none => false
  | some t => decide (t ≤ now)

/-- Modelled from the spec: `EntryStore.read` — `NotFound` if absent or
expired at call time; a successful read of a burn-after-read entry also
deletes the row as part of the same operation (spec section 4.1). -/
def readStore (now : Nat) (i : Nat) (store : List (Nat × Entry)) :
    Except Error (Entry × List (Nat × Entry)) :=
  match lookupStore i store with
  | none => Except.error Error.notFound
  | some e =>
    if isExpired now e then Except.error Error.notFound
    else Except.ok (e, if e.burnAfterRead then eraseStore i store else store)

/-- Modelled from the spec: `EntryStore.list_expired(now)` — all ids with
`expires_at <= now` still present (spec section 4.1). -/
def listExpired (now : Nat) (store : List (Nat × Entry)) : List Nat :=
  (store.filter (fun p => isExpired now p.2)).map Prod.fst

/-- Association lookup in the cache. -/
def lookupCache (k : CacheKey) (c : List (CacheKey × String)) : Option String :=
  alistLookup k c

/-- Remove a key from the cache list. -/
def eraseCacheKey (k : CacheKey) (c : List (CacheKey × String)) :
    List (CacheKey × String) :=
  alistErase k c

/-- Mark a key most-recently-used by moving it to the front. -/
def touchCache (k : CacheKey) (v : String) (c : List (CacheKey × String)) :
    List (CacheKey × String) :=
  (k, v) :: eraseCacheKey k c

/-- Modelled from the spec: insert at most-recently-used position and trim to
capacity, evicting from the least-recently-used end (spec section 4.2). -/
def insertEvictCache (cap : Nat) (k : CacheKey) (v : String)
    (c : List (CacheKey × String)) : List (CacheKey × String) :=
  List.take cap ((k, v) :: eraseCacheKey k c)

/-- Modelled from the spec: the sequential skeleton of
`RenderCache.get_or_compute` (spec section 4.2): a hit returns the cached
value and refreshes recency; a miss runs the computation, and on success
inserts the result (evicting the least-recently-used entry when over
capacity); a failed computation leaves the cache untouched. -/
def getOrCompute (key : CacheKey)
    (compute : SysState → Except Error String × SysState) (s : SysState) :
    Except Error String × SysState :=
  match lookupCache key s.cache with
  | some v => (Except.ok v, { s with cache := touchCache key v s.cache })
  | none =>
    match compute s with
    | (Except.ok v, s1) =>
      (Except.ok v, { s1 with cache := insertEvictCache s1.cap key v s1.cache })
    | (Except.error e, s1) => (Except.error e, s1)

/-- Modelled from the spec: `Coordinator.fetch_rendered(id, render_params)`
(spec section 4.3): build the cache key and call `get_or_compute` with a
computation that reads the store row (performing burn-after-read deletion)
and renders its content. -/
def fetchRendered (render : String → Option String → Except Error String)
    (now : Nat) (i : Nat) (p : Nat) (s : SysState) :
    Except Error String × SysState :=
  getOrCompute ⟨i, p⟩
    (fun st =>
      match readStore now i st.store with
      | Except.error e => (Except.error e, st)
      | Except.ok (entry, store1) =>
        match render entry.content entry.languageHint with
        | Except.ok v => (Except.ok v, { st with store := store1 })
        | Except.error e => (Except.error e, { st with store := store1 })) s

/-- Modelled from the spec: `Coordinator.insert_entry` delegates to
`EntryStore.create` and does not touch the cache (spec section 4.3). -/
def insertEntry (now : Nat) (content : String) (hint : Option String)
    (exp : Option Nat) (burn : Bool) (s : SysState) : Nat × SysState :=
  (s.nextId,
    { s with
      store := (s.nextId, ⟨content, hint, now, exp, burn⟩) :: s.store
      nextId := s.nextId + 1 })

/-- Modelled from the spec: `Coordinator.delete_entry(id)` — delete the store
row first (a store `NotFound` is treated as success, never surfaced), then
evict every cached render-parameter variant of the id (spec section 4.3). -/
def deleteEntry (i : Nat) (s : SysState) : Except Error Unit × SysState :=
  (Except.ok (),
    { s with
      store := eraseStore i s.store
      cache := s.cache.filter (fun p => decide (p.1.id ≠ i)) })

/-- Modelled from the spec: one PurgeScheduler sweep — list the expired ids
and run the full `delete_entry` path on each (spec section 4.4). -/
def purgeTick (now : Nat) (s : SysState) : SysState :=
  (listExpired now s.store).foldl (fun st i => (deleteEntry i st).2) s

/-- The operations the outside world can perform on the composed system. -/
inductive Op where
  | insert (now : Nat) (content : String) (hint : Option String)
      (exp : Option Nat) (burn : Bool)
  | fetch (now : Nat) (i : Nat) (p : Nat)
  | delete (i : Nat)
  | purge (now : Nat)

/-- Apply one operation to the system state. -/
def applyOp (render : String → Option String → Except Error String)
    (op : Op) (s : SysState) : SysState :=
  match op with
  | Op.insert now content hint exp burn =>
    (insertEntry now content hint exp burn s).2
  | Op.fetch now i p => (fetchRendered render now i p s).2
  | Op.delete i => (deleteEntry i s).2
  | Op.purge now => purgeTick now s

/-- Run a sequence of operations. -/
def runOps (render : String → Option String → Except Error String)
    (ops : List Op) (s : SysState) : SysState :=
  ops.foldl (fun st op => applyOp render op st) s

/-- The empty system with a given cache capacity. -/
def init (cap : Nat) : SysState := ⟨[], 0, [], cap⟩

/-- A concrete always-succeeding render function used for evaluation. -/
def renderOk (content : String) (_ : Option String) : Except Error String :=
  Except.ok content

/-- The coherence predicate the spec states as an invariant: every cached key
has a live, unexpired store row (spec section 3). -/
def cacheCoherent (now : Nat) (s : SysState) : Bool :=
  s.cache.all (fun kv =>
    match lookupStore kv.1.id s.store with
    | some e => ! isExpired now e
    | none => false)

/-- True when the operation is not an insertion of a burn-after-read entry. -/
def noBurnOp (op : Op) : Bool :=
  match op with
  | Op.insert _ _ _ _ burn => ! burn
  | _ => true

/-- Bool test: the id is absent from the store or its entry is expired. -/
def expiredOrAbsent (now : Nat) (i : Nat) (store : List (Nat × Entry)) : Bool :=
  match lookupStore i store with
  | none => true
  | some e => isExpired now e

/-- Modelled from the spec: the state of the single-flight render cache under
concurrency (spec sections 4.2 and 5), for the missing `cache.rs`:
`pending` maps each in-flight key to the callers waiting on it (leader first),
`starts` counts invocations of the computation, and `delivered` records the
results handed to callers. -/
structure SFState where
  cache : List (CacheKey × String)
  cap : Nat
  pending : List (CacheKey × List Nat)
  starts : Nat
  delivered : List (Nat × Except Error String)

/-- Lookup in the pending (in-flight) map. -/
def lookupPending (k : CacheKey) (l : List (CacheKey × List Nat)) :
    Option (List Nat) :=
  alistLookup k l

/-- Remove a key from the pending map. -/
def erasePending (k : CacheKey) (l : List (CacheKey × List Nat)) :
    List (CacheKey × List Nat) :=
  alistErase k l

/-- Replace the waiter list of a key in the pending map. -/
def setPending (k : CacheKey) (w : List Nat) (l : List (CacheKey × List Nat)) :
    List (CacheKey × List Nat) :=
  (k, w) :: erasePending k l

/-- Modelled from the spec: a caller arriving at `get_or_compute` (spec
section 4.2).  A hit delivers the cached value and refreshes recency; a miss
with an in-flight computation joins the waiters; a fresh miss makes the
caller the leader, starting one invocation of the computation. -/
def arrive (c : Nat) (k : CacheKey) (s : SFState) : SFState :=
  match lookupCache k s.cache with
  | some v =>
    { s with cache := touchCache k v s.cache
             delivered := (c, Except.ok v) :: s.delivered }
  | none =>
    match lookupPending k s.pending with
    | some w => { s with pending := setPending k (w ++ [c]) s.pending }
    | none =>
      { s with pending := (k, [c]) :: s.pending, starts := s.starts + 1 }

/-- Modelled from the spec: the leader's computation for a key completes
successfully — the result is inserted (with eviction) and delivered to every
waiter; a completion whose key is no longer in flight is discarded, never
resurrecting an evicted key (spec sections 4.2 and 5). -/
def completeOk (k : CacheKey) (v : String) (s : SFState) : SFState :=
  match lookupPending k s.pending with
  | some w =>
    { s with pending := erasePending k s.pending
             cache := insertEvictCache s.cap k v s.cache
             delivered := w.map (fun c => (c, Except.ok v)) ++ s.delivered }
  | none => s

/-- Modelled from the spec: the leader's computation fails — the failure is
delivered to every waiter and nothing is cached (spec section 4.2). -/
def completeErr (k : CacheKey) (e : Error) (s : SFState) : SFState :=
  match lookupPending k s.pending with
  | some w =>
    { s with pending := erasePending k s.pending
             delivered := w.map (fun c => (c, Except.error e)) ++ s.delivered }
  | none => s

/-- A batch of callers arriving one after another on the same key. -/
def arriveAll (cs : List Nat) (k : CacheKey) (s : SFState) : SFState :=
  cs.foldl (fun st c => arrive c k st) s

/-- The empty single-flight cache state. -/
def initSF (cap : Nat) : SFState := ⟨[], cap, [], 0, []⟩

/-- Modelled from the spec: one PurgeScheduler tick with injected transient
failures (spec section 4.4): if `list_expired` fails the tick is a no-op and
is retried on the next tick; otherwise each expired id goes through the full
`delete_entry` path, and a failure deleting one id skips only that id. -/
def purgeTickF (listFail : Bool) (delFail : Nat → Bool) (now : Nat)
    (s : SysState) : SysState :=
  if listFail then s
  else
    (listExpired now s.store).foldl
      (fun st i => if delFail i then st else (deleteEntry i st).2) s

/-- Modelled from the spec: the PurgeScheduler loop after `n` ticks, for an
arbitrary stream of injected failures and clock readings; the loop runs
forever, one tick after another (spec section 4.4). -/
def purgeRunF (lf : Nat → Bool) (df : Nat → Nat → Bool) (nows : Nat → Nat) :
    Nat → SysState → SysState
  | 0, s => s
  | Nat.succ n, s => purgeTickF (lf n) (df n) (nows n) (purgeRunF lf df nows n s)

/-- An environment variable as `std::env::var` reports it: present with a
unicode value, absent, or present with non-unicode data. -/
inductive EnvVal where
  | notPresent
  | notUnicode
  | present (s : String)

/-- Decimal digit run to a number; fails on any non-digit. -/
def parseDigitsAux : List Char → Nat → Option Nat
  | [], acc => some acc
  | c :: cs, acc =>
    if c.isDigit then parseDigitsAux cs (acc * 10 + (c.toNat - 48)) else none

/-- Rust `usize::from_str` on a 64-bit target: an optional leading `+`, then
a nonempty run of ASCII digits, rejecting values that overflow `usize`. -/
def parseUsize (s : String) : Option Nat :=
  let cs :=
    match s.data with
    | '+' :: rest => rest
    | other => other
  match cs with
  | [] => none
  | _ =>
    match parseDigitsAux cs 0 with
    | some n => if n < 2 ^ 64 then some n else none
    | none => none

/-- Rust `NonZeroUsize::from_str`: parse as `usize`, rejecting zero. -/
def parseNonZeroUsize (s : String) : Option Nat :=
  match parseUsize s with
  | some 0 => none
  | some n => some n
  | none => none

/-- From `src/main.rs` lines 141-146: the cache size is the parsed
`WASTEBIN_CACHE_SIZE` when the variable holds a value, and 128 when reading
the variable fails; a present value that does not parse as a nonzero size is
an error that `?` propagates out of `serve`. -/
def cacheSizeFromEnv (v : EnvVal) : Except String Nat :=
  match v with
  | EnvVal.present s =>
    match parseNonZeroUsize s with
    | some n => Except.ok n
    | none =>
      Except.error "failed to parse WASTEBIN_CACHE_SIZE, expect number of elements"
  | EnvVal.notPresent => Except.ok 128
  | EnvVal.notUnicode => Except.ok 128

/-- The capacity with which `cache::Layer::new` is called once `serve`
reaches the point of binding the server (`src/main.rs` lines 148-167). -/
structure ServerStart where
  capacity : Nat
  deriving DecidableEq, Repr

/-- From `src/main.rs` `serve`: the configuration steps run before anything
serves; an error in the cache-size step aborts before the cache layer is
built and before the server is bound. -/
def serveStart (cacheVar : EnvVal) : Except String ServerStart :=
  match cacheSizeFromEnv cacheVar with
  | Except.ok n => Except.ok ⟨n⟩
  | Except.error e => Except.error e

/-- Every store row has `burn_after_read = false`. -/
def storeNoBurn (s : SysState) : Prop :=
  ∀ p ∈ s.store, p.2.burnAfterRead = false

/-- Every cached key still has a store row for its id component. -/
def cacheBacked (s : SysState) : Prop :=
  ∀ kv ∈ s.cache, (lookupStore kv.1.id s.store).isSome = true

/-- The scenario of spec section 8 item 6: capacity 2, insert A, B, C,
then fetch-render A, B, C, A. -/
def scenarioOps : List Op :=
  [Op.insert 0 "A" none none false,
   Op.insert 0 "B" none none false,
   Op.insert 0 "C" none none false,
   Op.fetch 0 0 0, Op.fetch 0 1 0, Op.fetch 0 2 0, Op.fetch 0 0 0]

/-- Insert one burn-after-read entry and fetch it once. -/
def burnOps : List Op :=
  [Op.insert 0 "x" none none true, Op.fetch 0 0 0]

/-- Insert an entry expiring at time 10 and fetch it (caching it) at time 5. -/
def expireOps : List Op :=
  [Op.insert 0 "x" none (some 10) false, Op.fetch 5 0 0]

theorem alistLookup_cons {κ α : Type} [DecidableEq κ] (k j : κ) (v : α)
    (l : List (κ × α)) :
    alistLookup k ((j, v) :: l) = if j = k then some v else alistLookup k l :=
  rfl

theorem alistLookup_mem {κ α : Type} [DecidableEq κ] {k : κ} {v : α}
    {l : List (κ × α)} (h : alistLookup k l = some v) : (k, v) ∈ l := by
  induction l with
  | nil => simp [alistLookup] at h
  | cons p rest ih =>
    obtain ⟨j, w⟩ := p
    by_cases hj : j = k
    · subst hj
      rw [alistLookup_cons, if_pos rfl] at h
      simp only [Option.some.injEq] at h
      subst h
      exact List.mem_cons_self _ _
    · rw [alistLookup_cons, if_neg hj] at h
      exact List.mem_cons_of_mem _ (ih h)

theorem alistLookup_none_forall {κ α : Type} [DecidableEq κ] {k : κ}
    {l : List (κ × α)} (h : alistLookup k l = none) : ∀ p ∈ l, p.1 ≠ k := by
  induction l with
  | nil => simp
  | cons p rest ih =>
    obtain ⟨j, w⟩ := p
    by_cases hj : j = k
    · rw [alistLookup_cons, if_pos hj] at h
      exact absurd h (by simp)
    · rw [alistLookup_cons, if_neg hj] at h
      intro q hq
      rcases List.mem_cons.mp hq with h1 | h2
      · subst h1; exact hj
      · exact ih h q h2

theorem alistErase_lookup_self {κ α : Type} [DecidableEq κ] (k : κ)
    (l : List (κ × α)) : alistLookup k (alistErase k l) = none := by
  induction l with
  | nil => rfl
  | cons p rest ih =>
    obtain ⟨j, w⟩ := p
    by_cases hj : j = k
    · subst hj
      simp only [alistErase, List.filter_cons]
      rw [if_neg (by simp)]
      exact ih
    · simp only [alistErase, List.filter_cons]
      rw [if_pos (by simp [hj]), alistLookup_cons, if_neg hj]
      exact ih

theorem alistErase_lookup_ne {κ α : Type} [DecidableEq κ] {k j : κ}
    (hjk : j ≠ k) (l : List (κ × α)) :
    alistLookup j (alistErase k l) = alistLookup j l := by
  induction l with
  | nil => rfl
  | cons p rest ih =>
    obtain ⟨i, w⟩ := p
    by_cases hik : i = k
    · subst hik
      simp only [alistErase, List.filter_cons]
      rw [if_neg (by simp)]
      rw [alistLookup_cons, if_neg (fun h => hjk h.symm)]
      exact ih
    · simp only [alistErase, List.filter_cons]
      rw [if_pos (by simp [hik])]
      rw [alistLookup_cons, alistLookup_cons]
      by_cases hij : i = j
      · rw [if_pos hij, if_pos hij]
      · rw [if_neg hij, if_neg hij]
        exact ih

theorem alistLookup_filter_none {κ α : Type} [DecidableEq κ] {k : κ}
    {l : List (κ × α)} (q : κ × α → Bool) (h : alistLookup k l = none) :
    alistLookup k (l.filter q) = none := by
  induction l with
  | nil => rfl
  | cons p rest ih =>
    obtain ⟨j, w⟩ := p
    rw [alistLookup_cons] at h
    by_cases hj : j = k
    · rw [if_pos hj] at h
      exact absurd h (by simp)
    · rw [if_neg hj] at h
      rw [List.filter_cons]
      by_cases hq : q (j, w) = true
      · rw [if_pos hq, alistLookup_cons, if_neg hj]
        exact ih h
      · rw [if_neg hq]
        exact ih h

theorem alistErase_of_lookup_none {κ α : Type} [DecidableEq κ] {k : κ}
    {l : List (κ × α)} (h : alistLookup k l = none) : alistErase k l = l := by
  refine List.filter_eq_self.mpr ?_
  intro p hp
  simpa using alistLookup_none_forall h p hp

theorem alistErase_length_lt {κ α : Type} [DecidableEq κ] {k : κ} {v : α}
    {l : List (κ × α)} (h : alistLookup k l = some v) :
    (alistErase k l).length < l.length := by
  induction l with
  | nil => simp [alistLookup] at h
  | cons p rest ih =>
    obtain ⟨j, w⟩ := p
    rw [alistLookup_cons] at h
    by_cases hj : j = k
    · have h1 : alistErase k ((j, w) :: rest) = alistErase k rest := by
        simp only [alistErase, List.filter_cons]
        rw [if_neg (by simp [hj])]
      rw [h1, List.length_cons]
      exact Nat.lt_succ_of_le (List.length_filter_le _ _)
    · have h1 : alistErase k ((j, w) :: rest) = (j, w) :: alistErase k rest := by
        simp only [alistErase, List.filter_cons]
        rw [if_pos (by simp [hj])]
      rw [h1, List.length_cons, List.length_cons]
      rw [if_neg hj] at h
      exact Nat.succ_lt_succ (ih h)

theorem alistLookup_cons_isSome {κ α : Type} [DecidableEq κ] {k j : κ} {v : α}
    {l : List (κ × α)} (h : (alistLookup k l).isSome = true) :
    (alistLookup k ((j, v) :: l)).isSome = true := by
  rw [alistLookup_cons]
  by_cases hj : j = k
  · rw [if_pos hj]; rfl
  · rw [if_neg hj]; exact h

theorem readStore_ok {now i : Nat} {store : List (Nat × Entry)} {e : Entry}
    {store1 : List (Nat × Entry)}
    (h : readStore now i store = Except.ok (e, store1)) :
    lookupStore i store = some e ∧ isExpired now e = false ∧
      store1 = (if e.burnAfterRead then eraseStore i store else store) := by
  unfold readStore at h
  split at h
  · exact absurd h (by simp)
  · rename_i e2 hl
    split at h
    · exact absurd h (by simp)
    · rename_i hex
      simp only [Except.ok.injEq, Prod.mk.injEq] at h
      obtain ⟨he, hs⟩ := h
      subst he
      simp only [Bool.not_eq_true] at hex
      exact ⟨hl, hex, hs.symm⟩

theorem storeNoBurn_lookup {s : SysState} (h : storeNoBurn s) {i : Nat}
    {e : Entry} (hl : lookupStore i s.store = some e) :
    e.burnAfterRead = false :=
  h (i, e) (alistLookup_mem hl)

theorem fetch_hit (render : String → Option String → Except Error String)
    (now i p : Nat) (s : SysState) {v : String}
    (h : lookupCache ⟨i, p⟩ s.cache = some v) :
    fetchRendered render now i p s =
      (Except.ok v, { s with cache := touchCache ⟨i, p⟩ v s.cache }) := by
  simp only [fetchRendered, getOrCompute, h]

theorem fetch_readErr (render : String → Option String → Except Error String)
    (now i p : Nat) (s : SysState) {e : Error}
    (hc : lookupCache ⟨i, p⟩ s.cache = none)
    (hr : readStore now i s.store = Except.error e) :
    fetchRendered render now i p s = (Except.error e, s) := by
  simp only [fetchRendered, getOrCompute, hc, hr]

theorem fetch_renderOk (render : String → Option String → Except Error String)
    (now i p : Nat) (s : SysState) {entry : Entry}
    {store1 : List (Nat × Entry)} {v : String}
    (hc : lookupCache ⟨i, p⟩ s.cache = none)
    (hr : readStore now i s.store = Except.ok (entry, store1))
    (hren : render entry.content entry.languageHint = Except.ok v) :
    fetchRendered render now i p s =
      (Except.ok v,
       { s with store := store1
                cache := insertEvictCache s.cap ⟨i, p⟩ v s.cache }) := by
  simp only [fetchRendered, getOrCompute, hc, hr, hren]

theorem fetch_renderErr (render : String → Option String → Except Error String)
    (now i p : Nat) (s : SysState) {entry : Entry}
    {store1 : List (Nat × Entry)} {e : Error}
    (hc : lookupCache ⟨i, p⟩ s.cache = none)
    (hr : readStore now i s.store = Except.ok (entry, store1))
    (hren : render entry.content entry.languageHint = Except.error e) :
    fetchRendered render now i p s = (Except.error e, { s with store := store1 }) := by
  simp only [fetchRendered, getOrCompute, hc, hr, hren]

theorem good_insertEntry {s : SysState} (hnb : storeNoBurn s)
    (hcb : cacheBacked s) (now : Nat) (content : String) (hint : Option String)
    (exp : Option Nat) (burn : Bool) (hburn : burn = false) :
    storeNoBurn (insertEntry now content hint exp burn s).2 ∧
      cacheBacked (insertEntry now content hint exp burn s).2 := by
  constructor
  · intro q hq
    simp only [insertEntry] at hq
    rcases List.mem_cons.mp hq with h1 | h2
    · subst h1; simpa using hburn
    · exact hnb q h2
  · intro kv hkv
    simp only [insertEntry] at hkv ⊢
    exact alistLookup_cons_isSome (hcb kv hkv)

theorem good_deleteEntry {s : SysState} (hnb : storeNoBurn s)
    (hcb : cacheBacked s) (i : Nat) :
    storeNoBurn (deleteEntry i s).2 ∧ cacheBacked (deleteEntry i s).2 := by
  constructor
  · intro q hq
    simp only [deleteEntry, eraseStore, alistErase] at hq
    exact hnb q (List.mem_of_mem_filter hq)
  · intro kv hkv
    simp only [deleteEntry] at hkv ⊢
    have hkv2 := List.mem_filter.mp hkv
    have hne : kv.1.id ≠ i := by simpa using hkv2.2
    have hback := hcb kv hkv2.1
    rw [show lookupStore kv.1.id (eraseStore i s.store) =
          lookupStore kv.1.id s.store from alistErase_lookup_ne hne s.store]
    exact hback

theorem good_fetchRendered {s : SysState}
    (render : String → Option String → Except Error String)
    (hnb : storeNoBurn s) (hcb : cacheBacked s) (now i p : Nat) :
    storeNoBurn (fetchRendered render now i p s).2 ∧
      cacheBacked (fetchRendered render now i p s).2 := by
  cases hcc : lookupCache ⟨i, p⟩ s.cache with
  | some v =>
    rw [fetch_hit render now i p s hcc]
    refine ⟨hnb, ?_⟩
    intro kv hkv
    simp only [touchCache] at hkv
    rcases List.mem_cons.mp hkv with h1 | h2
    · subst h1
      exact hcb (⟨⟨i, p⟩, v⟩) (alistLookup_mem hcc)
    · simp only [eraseCacheKey, alistErase] at h2
      exact hcb kv (List.mem_of_mem_filter h2)
  | none =>
    cases hrs : readStore now i s.store with
    | error e =>
      rw [fetch_readErr render now i p s hcc hrs]
      exact ⟨hnb, hcb⟩
    | ok pr =>
      obtain ⟨entry, store1⟩ := pr
      obtain ⟨hl, hexp, hst⟩ := readStore_ok hrs
      have hb : entry.burnAfterRead = false := storeNoBurn_lookup hnb hl
      rw [hb] at hst
      simp only [Bool.false_eq_true, if_false] at hst
      subst hst
      cases hr : render entry.content entry.languageHint with
      | ok v =>
        rw [fetch_renderOk render now i p s hcc hrs hr]
        refine ⟨hnb, ?_⟩
        intro kv hkv
        simp only [insertEvictCache] at hkv
        have hkv2 := List.mem_of_mem_take hkv
        rcases List.mem_cons.mp hkv2 with h1 | h2
        · subst h1
          simp only []
          rw [show lookupStore (⟨⟨i, p⟩, v⟩ : CacheKey × String).1.id s.store =
                some entry from hl]
          rfl
        · simp only [eraseCacheKey, alistErase] at h2
          exact hcb kv (List.mem_of_mem_filter h2)
      | error e =>
        rw [fetch_renderErr render now i p s hcc hrs hr]
        exact ⟨hnb, hcb⟩

theorem good_foldDelete (l : List Nat) :
    ∀ {s : SysState}, storeNoBurn s → cacheBacked s →
      storeNoBurn (l.foldl (fun st i => (deleteEntry i st).2) s) ∧
        cacheBacked (l.foldl (fun st i => (deleteEntry i st).2) s) := by
  induction l with
  | nil => intro s h1 h2; exact ⟨h1, h2⟩
  | cons i rest ih =>
    intro s h1 h2
    have hstep := good_deleteEntry h1 h2 i
    exact ih hstep.1 hstep.2

theorem good_applyOp (render : String → Option String → Except Error String)
    {op : Op} (hop : noBurnOp op = true) {s : SysState}
    (h1 : storeNoBurn s) (h2 : cacheBacked s) :
    storeNoBurn (applyOp render op s) ∧ cacheBacked (applyOp render op s) := by
  cases op with
  | insert now content hint exp burn =>
    have hb : burn = false := by simpa [noBurnOp] using hop
    exact good_insertEntry h1 h2 now content hint exp burn hb
  | fetch now i p => exact good_fetchRendered render h1 h2 now i p
  | delete i => exact good_deleteEntry h1 h2 i
  | purge now => exact good_foldDelete _ h1 h2

theorem good_runOps (render : String → Option String → Except Error String) :
    ∀ (ops : List Op), (∀ op ∈ ops, noBurnOp op = true) →
      ∀ s : SysState, storeNoBurn s → cacheBacked s →
        storeNoBurn (runOps render ops s) ∧ cacheBacked (runOps render ops s) := by
  intro ops
  induction ops with
  | nil => intro _ s h1 h2; exact ⟨h1, h2⟩
  | cons op rest ih =>
    intro hops s h1 h2
    have hop := hops op (List.mem_cons_self _ _)
    have hstep := good_applyOp render hop h1 h2
    exact ih (fun o ho => hops o (List.mem_cons_of_mem _ ho)) _ hstep.1 hstep.2

theorem fetchRendered_cap (render : String → Option String → Except Error String)
    (now i p : Nat) (s : SysState) :
    ((fetchRendered render now i p s).2).cap = s.cap := by
  cases hcc : lookupCache ⟨i, p⟩ s.cache with
  | some v => rw [fetch_hit render now i p s hcc]
  | none =>
    cases hrs : readStore now i s.store with
    | error e => rw [fetch_readErr render now i p s hcc hrs]
    | ok pr =>
      obtain ⟨entry, store1⟩ := pr
      cases hr : render entry.content entry.languageHint with
      | ok v => rw [fetch_renderOk render now i p s hcc hrs hr]
      | error e => rw [fetch_renderErr render now i p s hcc hrs hr]

theorem foldDelete_cap (l : List Nat) :
    ∀ s : SysState, ((l.foldl (fun st i => (deleteEntry i st).2) s)).cap = s.cap := by
  induction l with
  | nil => intro s; rfl
  | cons i rest ih => intro s; exact ih ((deleteEntry i s).2)

theorem applyOp_cap (render : String → Option String → Except Error String)
    (op : Op) (s : SysState) : (applyOp render op s).cap = s.cap := by
  cases op with
  | insert now content hint exp burn => rfl
  | fetch now i p => exact fetchRendered_cap render now i p s
  | delete i => rfl
  | purge now => exact foldDelete_cap _ s

theorem touchCache_length_le {k : CacheKey} {v : String}
    {c : List (CacheKey × String)} (h : lookupCache k c = some v) :
    (touchCache k v c).length ≤ c.length := by
  simp only [touchCache, List.length_cons]
  exact Nat.succ_le_of_lt (alistErase_length_lt h)

theorem insertEvictCache_length_le (cap : Nat) (k : CacheKey) (v : String)
    (c : List (CacheKey × String)) :
    (insertEvictCache cap k v c).length ≤ cap := by
  simp only [insertEvictCache]
  exact List.length_take_le cap _

theorem fetchRendered_len (render : String → Option String → Except Error String)
    (now i p : Nat) {s : SysState} (h : s.cache.length ≤ s.cap) :
    ((fetchRendered render now i p s).2).cache.length ≤ s.cap := by
  cases hcc : lookupCache ⟨i, p⟩ s.cache with
  | some v =>
    rw [fetch_hit render now i p s hcc]
    exact le_trans (touchCache_length_le hcc) h
  | none =>
    cases hrs : readStore now i s.store with
    | error e =>
      rw [fetch_readErr render now i p s hcc hrs]
      exact h
    | ok pr =>
      obtain ⟨entry, store1⟩ := pr
      cases hr : render entry.content entry.languageHint with
      | ok v =>
        rw [fetch_renderOk render now i p s hcc hrs hr]
        exact insertEvictCache_length_le s.cap _ _ _
      | error e =>
        rw [fetch_renderErr render now i p s hcc hrs hr]
        exact h

theorem foldDelete_len (l : List Nat) (N : Nat) :
    ∀ s : SysState, s.cache.length ≤ N →
      ((l.foldl (fun st i => (deleteEntry i st).2) s)).cache.length ≤ N := by
  induction l with
  | nil => intro s h; exact h
  | cons i rest ih =>
    intro s h
    apply ih
    exact le_trans (List.length_filter_le _ _) h

theorem capBound_applyOp (render : String → Option String → Except Error String)
    (op : Op) {s : SysState} (h : s.cache.length ≤ s.cap) :
    (applyOp render op s).cache.length ≤ (applyOp render op s).cap := by
  rw [applyOp_cap]
  cases op with
  | insert now content hint exp burn => exact h
  | fetch now i p => exact fetchRendered_len render now i p h
  | delete i => exact le_trans (List.length_filter_le _ _) h
  | purge now => exact foldDelete_len _ s.cap s h

theorem capBound_runOps (render : String → Option String → Except Error String)
    (ops : List Op) :
    ∀ s : SysState, s.cache.length ≤ s.cap →
      (runOps render ops s).cache.length ≤ (runOps render ops s).cap := by
  induction ops with
  | nil => intro s h; exact h
  | cons op rest ih =>
    intro s h
    exact ih _ (capBound_applyOp render op h)

theorem runOps_cap (render : String → Option String → Except Error String)
    (ops : List Op) :
    ∀ s : SysState, (runOps render ops s).cap = s.cap := by
  induction ops with
  | nil => intro s; rfl
  | cons op rest ih =>
    intro s
    rw [show runOps render (op :: rest) s = runOps render rest (applyOp render op s)
          from rfl]
    rw [ih, applyOp_cap]

theorem insertEvict_full {cap : Nat} (hcap : 1 ≤ cap) (k : CacheKey) (v : String)
    {c : List (CacheKey × String)} (hk : lookupCache k c = none)
    (hlen : c.length = cap) :
    insertEvictCache cap k v c = (k, v) :: c.dropLast := by
  simp only [insertEvictCache]
  rw [show eraseCacheKey k c = c from alistErase_of_lookup_none hk]
  obtain ⟨n, rfl⟩ : ∃ n, cap = n + 1 := ⟨cap - 1, (Nat.succ_pred_eq_of_pos hcap).symm⟩
  rw [List.take_succ_cons]
  congr 1
  rw [List.dropLast_eq_take, hlen]
  norm_num

theorem readStore_gone {now i : Nat} {store : List (Nat × Entry)}
    (h : expiredOrAbsent now i store = true) :
    readStore now i store = Except.error Error.notFound := by
  cases hl : lookupStore i store with
  | none => simp [readStore, hl]
  | some e =>
    have hex : isExpired now e = true := by
      simpa [expiredOrAbsent, hl] using h
    simp [readStore, hl, hex]

theorem fetch_gone (render : String → Option String → Except Error String)
    (now i p : Nat) (s : SysState)
    (hc : lookupCache ⟨i, p⟩ s.cache = none)
    (hgone : expiredOrAbsent now i s.store = true) :
    fetchRendered render now i p s = (Except.error Error.notFound, s) :=
  fetch_readErr render now i p s hc (readStore_gone hgone)

theorem evictId_lookup_none (i p : Nat) (c : List (CacheKey × String)) :
    alistLookup (⟨i, p⟩ : CacheKey) (c.filter (fun q => decide (q.1.id ≠ i))) = none := by
  induction c with
  | nil => rfl
  | cons q rest ih =>
    obtain ⟨qk, qv⟩ := q
    rw [List.filter_cons]
    by_cases hq : qk.id ≠ i
    · rw [if_pos (by simpa using hq)]
      rw [alistLookup_cons, if_neg ?_]
      · exact ih
      · intro hEq
        apply hq
        rw [hEq]
    · rw [if_neg (by simpa using hq)]
      exact ih

theorem deleteEntry_cache_self (i p : Nat) (s : SysState) :
    lookupCache ⟨i, p⟩ ((deleteEntry i s).2).cache = none :=
  evictId_lookup_none i p s.cache

theorem deleteEntry_store_self (i : Nat) (s : SysState) :
    lookupStore i ((deleteEntry i s).2).store = none :=
  alistErase_lookup_self i s.store

theorem deleteEntry_store_none {i j : Nat} {s : SysState}
    (h : lookupStore i s.store = none) :
    lookupStore i ((deleteEntry j s).2).store = none := by
  show alistLookup i (alistErase j s.store) = none
  by_cases hij : i = j
  · subst hij
    exact alistErase_lookup_self i s.store
  · rw [alistErase_lookup_ne hij]
    exact h

theorem deleteEntry_cache_none {k : CacheKey} {j : Nat} {s : SysState}
    (h : lookupCache k s.cache = none) :
    lookupCache k ((deleteEntry j s).2).cache = none :=
  alistLookup_filter_none _ h

theorem purgeFold_store_pres (df : Nat → Bool) (l : List Nat) :
    ∀ (s : SysState) (i : Nat), lookupStore i s.store = none →
      lookupStore i
        ((l.foldl (fun st j => if df j then st else (deleteEntry j st).2) s)).store =
        none := by
  induction l with
  | nil => intro s i h; exact h
  | cons j rest ih =>
    intro s i h
    apply ih
    show lookupStore i (if df j = true then s else (deleteEntry j s).2).store = none
    by_cases hdj : df j = true
    · rw [if_pos hdj]; exact h
    · rw [if_neg hdj]; exact deleteEntry_store_none h

theorem purgeFold_cache_pres (df : Nat → Bool) (l : List Nat) :
    ∀ (s : SysState) (k : CacheKey), lookupCache k s.cache = none →
      lookupCache k
        ((l.foldl (fun st j => if df j then st else (deleteEntry j st).2) s)).cache =
        none := by
  induction l with
  | nil => intro s k h; exact h
  | cons j rest ih =>
    intro s k h
    apply ih
    show lookupCache k (if df j = true then s else (deleteEntry j s).2).cache = none
    by_cases hdj : df j = true
    · rw [if_pos hdj]; exact h
    · rw [if_neg hdj]; exact deleteEntry_cache_none h

theorem purgeFold_removes (df : Nat → Bool) (l : List Nat) :
    ∀ (s : SysState) (i : Nat), i ∈ l → df i = false →
      lookupStore i
          ((l.foldl (fun st j => if df j then st else (deleteEntry j st).2) s)).store =
          none ∧
        ∀ p : Nat,
          lookupCache ⟨i, p⟩
            ((l.foldl (fun st j => if df j then st else (deleteEntry j st).2) s)).cache =
            none := by
  induction l with
  | nil => intro s i h; exact absurd h (List.not_mem_nil i)
  | cons j rest ih =>
    intro s i hmem hdf
    rcases List.mem_cons.mp hmem with heq | htail
    · subst heq
      have hstep : (if df i then s else (deleteEntry i s).2) = (deleteEntry i s).2 := by
        rw [if_neg (by simp [hdf])]
      rw [show (i :: rest).foldl (fun st j => if df j then st else (deleteEntry j st).2) s =
            rest.foldl (fun st j => if df j then st else (deleteEntry j st).2)
              (if df i then s else (deleteEntry i s).2) from rfl, hstep]
      constructor
      · exact purgeFold_store_pres df rest _ i (deleteEntry_store_self i s)
      · intro p
        exact purgeFold_cache_pres df rest _ ⟨i, p⟩ (deleteEntry_cache_self i p s)
    · exact ih _ i htail hdf

theorem lookupPending_setPending (k : CacheKey) (w : List Nat)
    (l : List (CacheKey × List Nat)) :
    lookupPending k (setPending k w l) = some w := by
  show alistLookup k ((k, w) :: erasePending k l) = some w
  rw [alistLookup_cons, if_pos rfl]

theorem arrive_join (k : CacheKey) (s : SFState) {w : List Nat} (c : Nat)
    (hc : lookupCache k s.cache = none)
    (hp : lookupPending k s.pending = some w) :
    arrive c k s = { s with pending := setPending k (w ++ [c]) s.pending } := by
  simp only [arrive, hc, hp]

theorem arrive_leader (k : CacheKey) (s : SFState) (c : Nat)
    (hc : lookupCache k s.cache = none)
    (hp : lookupPending k s.pending = none) :
    arrive c k s =
      { s with pending := (k, [c]) :: s.pending, starts := s.starts + 1 } := by
  simp only [arrive, hc, hp]

theorem arriveAll_join (cs : List Nat) (k : CacheKey) :
    ∀ (s : SFState) (w : List Nat),
      lookupCache k s.cache = none →
      lookupPending k s.pending = some w →
      (arriveAll cs k s).starts = s.starts ∧
        (arriveAll cs k s).cache = s.cache ∧
        lookupPending k (arriveAll cs k s).pending = some (w ++ cs) := by
  induction cs with
  | nil =>
    intro s w hc hp
    exact ⟨rfl, rfl, by simpa using hp⟩
  | cons c rest ih =>
    intro s w hc hp
    rw [show arriveAll (c :: rest) k s = arriveAll rest k (arrive c k s) from rfl,
        arrive_join k s c hc hp]
    obtain ⟨ha, hb, hpend⟩ :=
      ih { s with pending := setPending k (w ++ [c]) s.pending } (w ++ [c]) hc
        (lookupPending_setPending k _ _)
    refine ⟨ha, hb, ?_⟩
    rw [hpend]
    simp

theorem completeOk_pending {k : CacheKey} {s : SFState} {w : List Nat} (v : String)
    (hp : lookupPending k s.pending = some w) :
    completeOk k v s =
      { s with pending := erasePending k s.pending
               cache := insertEvictCache s.cap k v s.cache
               delivered := w.map (fun c => (c, Except.ok v)) ++ s.delivered } := by
  simp only [completeOk, hp]

theorem completeErr_pending {k : CacheKey} {s : SFState} {w : List Nat} (e : Error)
    (hp : lookupPending k s.pending = some w) :
    completeErr k e s =
      { s with pending := erasePending k s.pending
               delivered := w.map (fun c => (c, Except.error e)) ++ s.delivered } := by
  simp only [completeErr, hp]

/-- Claim C1 counterexample: the invariant "no CacheEntry for key K exists
while the Entry for K's id does not exist or has expired" fails on the
spec's own fetch path: after inserting a burn-after-read entry (id 0) and
fetching it once, the rendering is cached for key (0,0) while the store row
is gone, so the reachable state is incoherent. -/
theorem c1_invariant_counterexample :
    lookupCache ⟨0, 0⟩ (runOps renderOk burnOps (init 2)).cache = some "x" ∧
      lookupStore 0 (runOps renderOk burnOps (init 2)).store = none ∧
      cacheCoherent 0 (runOps renderOk burnOps (init 2)) = false := by
  decide

/-- Claim C1 (amended): in every state reachable by fetch, insert, delete and
purge operations in which no entry is ever inserted with burn_after_read,
every cached key's id still has a store row (the "has expired" half of the
original invariant can still lapse between expiry and the next purge sweep,
and burn-after-read fetches violate the original invariant outright). -/
theorem c1_cache_backed_amended
    (render : String → Option String → Except Error String) (ops : List Op)
    (cap : Nat) (h : ∀ op ∈ ops, noBurnOp op = true) :
    cacheBacked (runOps render ops (init cap)) := by
  refine (good_runOps render ops h (init cap) ?_ ?_).2
  · intro q hq
    exact absurd hq (List.not_mem_nil q)
  · intro kv hkv
    exact absurd hkv (List.not_mem_nil kv)

/-- Claim C1 witness: the amended invariant evaluated on a concrete run with
a non-burn insert followed by a fetch. -/
theorem c1_witness :
    (∀ op ∈ ([Op.insert 0 "a" none none false, Op.fetch 0 0 0] : List Op),
        noBurnOp op = true) ∧
      cacheBacked
        (runOps renderOk [Op.insert 0 "a" none none false, Op.fetch 0 0 0]
          (init 2)) :=
  ⟨by decide, c1_cache_backed_amended renderOk _ 2 (by decide)⟩

/-- Claim C2 counterexample: an entry with expires_at = 10 is fetched (and
cached) at time 5; at time 20 its expiry is in the past and the row is still
present, yet fetch_rendered returns the cached content, not NotFound,
because the spec's get_or_compute serves hits without consulting expiry. -/
theorem c2_cached_expired_counterexample :
    lookupStore 0 (runOps renderOk expireOps (init 2)).store =
        some ⟨"x", none, 0, some 10, false⟩ ∧
      (fetchRendered renderOk 20 0 0 (runOps renderOk expireOps (init 2))).1 =
        Except.ok "x" := by
  decide

/-- Claim C2 (amended): for every entry that is expired (or already purged)
at call time, fetch_rendered returns NotFound for every render function,
provided the requested key is not in the render cache; a rendering cached
before expiry keeps being served until it is evicted. -/
theorem c2_expired_uncached_notFound
    (render : String → Option String → Except Error String) (now i p : Nat)
    (s : SysState) (hc : lookupCache ⟨i, p⟩ s.cache = none)
    (hgone : expiredOrAbsent now i s.store = true) :
    (fetchRendered render now i p s).1 = Except.error Error.notFound := by
  rw [fetch_gone render now i p s hc hgone]

/-- Claim C2 witness: an uncached expired entry fetched at time 20. -/
theorem c2_witness :
    lookupCache ⟨0, 0⟩
        (runOps renderOk [Op.insert 0 "x" none (some 10) false] (init 2)).cache =
        none ∧
      expiredOrAbsent 20 0
        (runOps renderOk [Op.insert 0 "x" none (some 10) false] (init 2)).store =
        true ∧
      (fetchRendered renderOk 20 0 0
          (runOps renderOk [Op.insert 0 "x" none (some 10) false] (init 2))).1 =
        Except.error Error.notFound :=
  ⟨by decide, by decide,
    c2_expired_uncached_notFound renderOk 20 0 0 _ (by decide) (by decide)⟩

/-- Claim C3: if a batch of callers arrives at get_or_compute for a key that
is absent from the cache and not in flight, the computation is started
exactly once (also after the completion), and when the leader's computation
completes every caller in the batch is delivered the same computed value. -/
theorem c3_single_flight (cs : List Nat) (k : CacheKey) (v : String)
    (s : SFState) (hne : cs ≠ [])
    (hc : lookupCache k s.cache = none)
    (hp : lookupPending k s.pending = none) :
    (arriveAll cs k s).starts = s.starts + 1 ∧
      (completeOk k v (arriveAll cs k s)).starts = s.starts + 1 ∧
      ∀ c ∈ cs, (c, Except.ok v) ∈ (completeOk k v (arriveAll cs k s)).delivered := by
  obtain ⟨c0, rest, rfl⟩ := List.exists_cons_of_ne_nil hne
  rw [show arriveAll (c0 :: rest) k s = arriveAll rest k (arrive c0 k s) from rfl,
      arrive_leader k s c0 hc hp]
  have hp1 : lookupPending k
      ({ s with pending := (k, [c0]) :: s.pending,
                starts := s.starts + 1 } : SFState).pending = some [c0] := by
    show alistLookup k ((k, [c0]) :: s.pending) = some [c0]
    rw [alistLookup_cons, if_pos rfl]
  obtain ⟨ha, hb, hpend⟩ :=
    arriveAll_join rest k
      { s with pending := (k, [c0]) :: s.pending, starts := s.starts + 1 } [c0]
      hc hp1
  refine ⟨by rw [ha], ?_, ?_⟩
  · rw [completeOk_pending v hpend]
    simpa using ha
  · intro c hcmem
    rw [completeOk_pending v hpend]
    refine List.mem_append_left _ (List.mem_map_of_mem _ ?_)
    simpa using hcmem

/-- Claim C3 witness: three concurrent callers on one missing key. -/
theorem c3_witness :
    (([1, 2, 3] : List Nat) ≠ []) ∧
      lookupCache ⟨0, 0⟩ (initSF 4).cache = none ∧
      lookupPending ⟨0, 0⟩ (initSF 4).pending = none ∧
      ((arriveAll [1, 2, 3] ⟨0, 0⟩ (initSF 4)).starts = (initSF 4).starts + 1 ∧
        (completeOk ⟨0, 0⟩ "r" (arriveAll [1, 2, 3] ⟨0, 0⟩ (initSF 4))).starts =
          (initSF 4).starts + 1 ∧
        ∀ c ∈ ([1, 2, 3] : List Nat),
          (c, Except.ok "r") ∈
            (completeOk ⟨0, 0⟩ "r" (arriveAll [1, 2, 3] ⟨0, 0⟩ (initSF 4))).delivered) :=
  ⟨by decide, by decide, by decide,
    c3_single_flight [1, 2, 3] ⟨0, 0⟩ "r" (initSF 4) (by decide) (by decide)
      (by decide)⟩

/-- Claim C4 counterexample: after the first fetch of a burn-after-read
entry, the row is deleted but the rendering is cached, so a subsequent
fetch_rendered of the same id (same render parameters) returns the content,
not NotFound — refuting "every subsequent read or fetch_rendered of that id
returns NotFound" (and, via single-flight, concurrent same-key callers all
receive the content rather than N-1 NotFound). -/
theorem c4_counterexample :
    lookupStore 0 (runOps renderOk burnOps (init 2)).store = none ∧
      (fetchRendered renderOk 1 0 0 (runOps renderOk burnOps (init 2))).1 =
        Except.ok "x" := by
  decide

/-- Claim C4 (amended): the first successful fetch of a burn-after-read
entry returns the rendering and deletes the store row in the same operation;
every later fetch_rendered of that id whose key is not in the render cache
returns NotFound (the variant cached by the burning fetch itself keeps being
served). -/
theorem c4_burn_amended
    (render : String → Option String → Except Error String) (now i p : Nat)
    (s : SysState) (e : Entry) (v : String)
    (hrow : lookupStore i s.store = some e)
    (hburn : e.burnAfterRead = true)
    (hfresh : isExpired now e = false)
    (hkey : lookupCache ⟨i, p⟩ s.cache = none)
    (hren : render e.content e.languageHint = Except.ok v) :
    (fetchRendered render now i p s).1 = Except.ok v ∧
      lookupStore i ((fetchRendered render now i p s).2).store = none ∧
      ∀ q now2 : Nat,
        lookupCache ⟨i, q⟩ ((fetchRendered render now i p s).2).cache = none →
        (fetchRendered render now2 i q ((fetchRendered render now i p s).2)).1 =
          Except.error Error.notFound := by
  have hrs : readStore now i s.store = Except.ok (e, eraseStore i s.store) := by
    simp [readStore, hrow, hfresh, hburn]
  rw [fetch_renderOk render now i p s hkey hrs hren]
  refine ⟨rfl, alistErase_lookup_self i s.store, ?_⟩
  intro q now2 hq
  have hgone : expiredOrAbsent now2 i
      ({ s with store := eraseStore i s.store,
                cache := insertEvictCache s.cap ⟨i, p⟩ v s.cache } : SysState).store =
      true := by
    show expiredOrAbsent now2 i (eraseStore i s.store) = true
    unfold expiredOrAbsent
    rw [show lookupStore i (eraseStore i s.store) = none from
          alistErase_lookup_self i s.store]
  rw [fetch_gone render now2 i q _ hq hgone]

/-- Claim C4 witness: a concrete burn-after-read entry fetched through the
coordinator. -/
theorem c4_witness :
    lookupStore 0 (runOps renderOk [Op.insert 0 "x" none none true] (init 2)).store =
        some ⟨"x", none, 0, none, true⟩ ∧
      (⟨"x", none, 0, none, true⟩ : Entry).burnAfterRead = true ∧
      isExpired 0 ⟨"x", none, 0, none, true⟩ = false ∧
      lookupCache ⟨0, 0⟩
        (runOps renderOk [Op.insert 0 "x" none none true] (init 2)).cache = none ∧
      renderOk "x" none = Except.ok "x" ∧
      ((fetchRendered renderOk 0 0 0
            (runOps renderOk [Op.insert 0 "x" none none true] (init 2))).1 =
          Except.ok "x" ∧
        lookupStore 0
            ((fetchRendered renderOk 0 0 0
                (runOps renderOk [Op.insert 0 "x" none none true] (init 2))).2).store =
          none ∧
        ∀ q now2 : Nat,
          lookupCache ⟨0, q⟩
              ((fetchRendered renderOk 0 0 0
                  (runOps renderOk [Op.insert 0 "x" none none true] (init 2))).2).cache =
              none →
          (fetchRendered renderOk now2 0 q
                ((fetchRendered renderOk 0 0 0
                    (runOps renderOk [Op.insert 0 "x" none none true] (init 2))).2)).1 =
            Except.error Error.notFound) :=
  ⟨by decide, by decide, by decide, by decide, by decide,
    c4_burn_amended renderOk 0 0 0 _ ⟨"x", none, 0, none, true⟩ "x" (by decide)
      (by decide) (by decide) (by decide) (by decide)⟩

/-- Claim C5: with capacity N at least 1 the number of cached entries after
any operation sequence never exceeds N; inserting a fresh key into a full
cache evicts exactly the least-recently-used (last) entry; and the spec's
N = 2 scenario insert A,B,C, fetch A,B,C,A ends with the cache holding
exactly C and A (A most recent). -/
theorem c5_lru_capacity
    (render : String → Option String → Except Error String) (N : Nat)
    (hN : 1 ≤ N) (ops : List Op) (k : CacheKey) (v : String)
    (c : List (CacheKey × String)) (hk : lookupCache k c = none)
    (hlen : c.length = N) :
    (runOps render ops (init N)).cache.length ≤ N ∧
      insertEvictCache N k v c = (k, v) :: c.dropLast ∧
      (runOps renderOk scenarioOps (init 2)).cache.map Prod.fst =
        [⟨0, 0⟩, ⟨2, 0⟩] := by
  refine ⟨?_, insertEvict_full hN k v hk hlen, by decide⟩
  have h0 : (init N).cache.length ≤ (init N).cap := by simp [init]
  have hbound := capBound_runOps render ops (init N) h0
  rw [runOps_cap render ops (init N)] at hbound
  exact hbound

/-- Claim C5 witness: capacity 2, the scenario operations, and a full
two-entry cache receiving a fresh key. -/
theorem c5_witness :
    (1 ≤ 2) ∧
      lookupCache ⟨5, 0⟩ [(⟨1, 0⟩, "a"), (⟨2, 0⟩, "b")] = none ∧
      ([(⟨1, 0⟩, "a"), (⟨2, 0⟩, "b")] : List (CacheKey × String)).length = 2 ∧
      ((runOps renderOk scenarioOps (init 2)).cache.length ≤ 2 ∧
        insertEvictCache 2 ⟨5, 0⟩ "v" [(⟨1, 0⟩, "a"), (⟨2, 0⟩, "b")] =
          (⟨5, 0⟩, "v") :: [(⟨1, 0⟩, "a"), (⟨2, 0⟩, "b")].dropLast ∧
        (runOps renderOk scenarioOps (init 2)).cache.map Prod.fst =
          [⟨0, 0⟩, ⟨2, 0⟩]) :=
  ⟨by decide, by decide, by decide,
    c5_lru_capacity renderOk 2 (by decide) scenarioOps ⟨5, 0⟩ "v"
      [(⟨1, 0⟩, "a"), (⟨2, 0⟩, "b")] (by decide) (by decide)⟩

/-- Claim C6: delete_entry is idempotent — the second call returns success
(a store NotFound during deletion is swallowed, never surfaced), and after
either call no cache entry whose key has that id component remains, for
every render-parameter variant. -/
theorem c6_delete_idempotent (i : Nat) (s : SysState) :
    (deleteEntry i ((deleteEntry i s).2)).1 = Except.ok () ∧
      (∀ p : Nat, lookupCache ⟨i, p⟩ ((deleteEntry i s).2).cache = none) ∧
      ∀ p : Nat,
        lookupCache ⟨i, p⟩ ((deleteEntry i ((deleteEntry i s).2)).2).cache = none := by
  refine ⟨rfl, ?_, ?_⟩
  · intro p
    exact deleteEntry_cache_self i p s
  · intro p
    exact deleteEntry_cache_self i p _

/-- Claim C7: when the in-flight computation for a key fails, every waiter
on that key is delivered the same failure, the key is left absent from the
cache and from the in-flight map (failures are never cached), and a
subsequent caller on that key starts the computation again. -/
theorem c7_failure_propagation (k : CacheKey) (e : Error) (w : List Nat)
    (c2 : Nat) (s : SFState)
    (hp : lookupPending k s.pending = some w)
    (hc : lookupCache k s.cache = none) :
    (∀ c ∈ w, (c, Except.error e) ∈ (completeErr k e s).delivered) ∧
      lookupCache k (completeErr k e s).cache = none ∧
      lookupPending k (completeErr k e s).pending = none ∧
      (arrive c2 k (completeErr k e s)).starts = (completeErr k e s).starts + 1 := by
  rw [completeErr_pending e hp]
  have hpe : lookupPending k (erasePending k s.pending) = none :=
    alistErase_lookup_self k s.pending
  refine ⟨?_, hc, hpe, ?_⟩
  · intro c hcw
    exact List.mem_append_left _ (List.mem_map_of_mem _ hcw)
  · rw [arrive_leader k
        { s with pending := erasePending k s.pending
                 delivered := w.map (fun c => (c, Except.error e)) ++ s.delivered }
        c2 hc hpe]

/-- Claim C7 witness: a failing computation with two waiters, then a retry. -/
theorem c7_witness :
    lookupPending ⟨0, 0⟩ (⟨[], 2, [(⟨0, 0⟩, [7, 8])], 1, []⟩ : SFState).pending =
        some [7, 8] ∧
      lookupCache ⟨0, 0⟩ (⟨[], 2, [(⟨0, 0⟩, [7, 8])], 1, []⟩ : SFState).cache = none ∧
      ((∀ c ∈ ([7, 8] : List Nat),
          (c, Except.error Error.renderError) ∈
            (completeErr ⟨0, 0⟩ Error.renderError
              ⟨[], 2, [(⟨0, 0⟩, [7, 8])], 1, []⟩).delivered) ∧
        lookupCache ⟨0, 0⟩
            (completeErr ⟨0, 0⟩ Error.renderError
              ⟨[], 2, [(⟨0, 0⟩, [7, 8])], 1, []⟩).cache = none ∧
        lookupPending ⟨0, 0⟩
            (completeErr ⟨0, 0⟩ Error.renderError
              ⟨[], 2, [(⟨0, 0⟩, [7, 8])], 1, []⟩).pending = none ∧
        (arrive 9 ⟨0, 0⟩
              (completeErr ⟨0, 0⟩ Error.renderError
                ⟨[], 2, [(⟨0, 0⟩, [7, 8])], 1, []⟩)).starts =
          (completeErr ⟨0, 0⟩ Error.renderError
              ⟨[], 2, [(⟨0, 0⟩, [7, 8])], 1, []⟩).starts + 1) :=
  ⟨by decide, by decide,
    c7_failure_propagation ⟨0, 0⟩ Error.renderError [7, 8] 9
      ⟨[], 2, [(⟨0, 0⟩, [7, 8])], 1, []⟩ (by decide) (by decide)⟩

/-- Claim C8: the purge loop always proceeds to the next tick whatever
failures were injected (it never terminates on its own); a tick whose
list_expired fails leaves the state untouched to be retried on the next
tick; and within a sweep, a failure deleting one id does not prevent the
other expired ids from being removed from both store and cache. -/
theorem c8_purge_loop (lf : Nat → Bool) (df : Nat → Nat → Bool)
    (nows : Nat → Nat) (n now : Nat) (s : SysState) (delFail : Nat → Bool)
    (i : Nat) (hmem : i ∈ listExpired now s.store) (hdf : delFail i = false) :
    purgeRunF lf df nows (n + 1) s =
        purgeTickF (lf n) (df n) (nows n) (purgeRunF lf df nows n s) ∧
      purgeTickF true delFail now s = s ∧
      lookupStore i (purgeTickF false delFail now s).store = none ∧
      ∀ p : Nat, lookupCache ⟨i, p⟩ (purgeTickF false delFail now s).cache = none := by
  refine ⟨rfl, rfl, ?_, ?_⟩
  · exact (purgeFold_removes delFail (listExpired now s.store) s i hmem hdf).1
  · intro p
    exact (purgeFold_removes delFail (listExpired now s.store) s i hmem hdf).2 p

/-- Claim C8 witness: two expired rows, deletion of id 0 fails, id 1 is
still purged from store and cache in the same sweep. -/
theorem c8_witness :
    (1 ∈ listExpired 10
        (⟨[(0, ⟨"a", none, 0, some 5, false⟩), (1, ⟨"b", none, 0, some 5, false⟩)],
          2, [(⟨1, 0⟩, "b")], 4⟩ : SysState).store) ∧
      (fun j => decide (j = 0)) 1 = false ∧
      (purgeRunF (fun _ => true) (fun _ _ => true) (fun _ => 0) (3 + 1)
            (⟨[(0, ⟨"a", none, 0, some 5, false⟩), (1, ⟨"b", none, 0, some 5, false⟩)],
              2, [(⟨1, 0⟩, "b")], 4⟩ : SysState) =
          purgeTickF true (fun _ => true) 0
            (purgeRunF (fun _ => true) (fun _ _ => true) (fun _ => 0) 3
              (⟨[(0, ⟨"a", none, 0, some 5, false⟩), (1, ⟨"b", none, 0, some 5, false⟩)],
                2, [(⟨1, 0⟩, "b")], 4⟩ : SysState)) ∧
        purgeTickF true (fun j => decide (j = 0)) 10
            (⟨[(0, ⟨"a", none, 0, some 5, false⟩), (1, ⟨"b", none, 0, some 5, false⟩)],
              2, [(⟨1, 0⟩, "b")], 4⟩ : SysState) =
          (⟨[(0, ⟨"a", none, 0, some 5, false⟩), (1, ⟨"b", none, 0, some 5, false⟩)],
            2, [(⟨1, 0⟩, "b")], 4⟩ : SysState) ∧
        lookupStore 1
            (purgeTickF false (fun j => decide (j = 0)) 10
              (⟨[(0, ⟨"a", none, 0, some 5, false⟩), (1, ⟨"b", none, 0, some 5, false⟩)],
                2, [(⟨1, 0⟩, "b")], 4⟩ : SysState)).store = none ∧
        ∀ p : Nat,
          lookupCache ⟨1, p⟩
              (purgeTickF false (fun j => decide (j = 0)) 10
                (⟨[(0, ⟨"a", none, 0, some 5, false⟩), (1, ⟨"b", none, 0, some 5, false⟩)],
                  2, [(⟨1, 0⟩, "b")], 4⟩ : SysState)).cache = none) :=
  ⟨by decide, by decide,
    c8_purge_loop (fun _ => true) (fun _ _ => true) (fun _ => 0) 3 10
      ⟨[(0, ⟨"a", none, 0, some 5, false⟩), (1, ⟨"b", none, 0, some 5, false⟩)],
        2, [(⟨1, 0⟩, "b")], 4⟩ (fun j => decide (j = 0)) 1 (by decide) (by decide)⟩

/-- Claim C9: a WASTEBIN_CACHE_SIZE value that does not parse as a nonzero
size — in particular the string "0" — makes the cache-size configuration
step fail, and serve propagates the error before the cache layer is built
or the server is bound: zero or unparsable capacities are fatal at
construction, never accepted or silently corrected. -/
theorem c9_config_validation (s : String) (h : parseNonZeroUsize s = none) :
    cacheSizeFromEnv (EnvVal.present s) =
        Except.error "failed to parse WASTEBIN_CACHE_SIZE, expect number of elements" ∧
      serveStart (EnvVal.present s) =
        Except.error "failed to parse WASTEBIN_CACHE_SIZE, expect number of elements" := by
  have h1 : cacheSizeFromEnv (EnvVal.present s) =
      Except.error "failed to parse WASTEBIN_CACHE_SIZE, expect number of elements" := by
    simp [cacheSizeFromEnv, h]
  exact ⟨h1, by simp [serveStart, h1]⟩

/-- Claim C9 witness: the capacity string "0" is rejected. -/
theorem c9_witness :
    parseNonZeroUsize "0" = none ∧
      (cacheSizeFromEnv (EnvVal.present "0") =
          Except.error "failed to parse WASTEBIN_CACHE_SIZE, expect number of elements" ∧
        serveStart (EnvVal.present "0") =
          Except.error "failed to parse WASTEBIN_CACHE_SIZE, expect number of elements") :=
  ⟨by decide, c9_config_validation "0" (by decide)⟩

/-- Claim C10: when WASTEBIN_CACHE_SIZE is absent from the environment the
cache-size step yields the default capacity 128 — a nonzero value — and
serve proceeds to construct the cache layer with capacity 128, so an unset
variable never causes a construction failure. -/
theorem c10_default_capacity :
    cacheSizeFromEnv EnvVal.notPresent = Except.ok 128 ∧
      serveStart EnvVal.notPresent = Except.ok ⟨128⟩ ∧ (128 : Nat) ≠ 0 :=
  ⟨rfl, rfl, by decide⟩

end Wastebin
